import Mathlib

/-!
Shallow embedding of the session cipher core of libsignal-client
(src/rust/protocol/src/session_cipher.rs), together with the data model it
operates on.  The functions `message_encrypt`, `message_decrypt_signal`,
`message_decrypt_prekey`, `decrypt_message_with_record`,
`decrypt_message_with_state`, `get_or_create_chain_key` and
`get_or_create_message_key` are translated line by line from
session_cipher.rs.  The session/state/record data model and its accessors
live in the repository outside the provided sources (state.rs,
session.rs, ratchet.rs): those definitions are modelled from the
specification's data-model section and carry a `Modelled from the spec`
note in their doc comment.  Cryptographic primitives (HKDF, AES-CBC, the
curve) are out of scope for the core and are treated as total functions;
they are given concrete executable stand-ins so that every definition can
be evaluated on concrete inputs.

Store interactions are modelled by explicit state passing: each
orchestrator takes a `Stores` value and returns, besides its result, the
updated `Stores` and the ordered trace of store calls it performed
(`List StoreEvent`).  Mutation of a `SessionRecord` is modelled by the
record returned on the success path; an error result carries no record,
matching the Rust code where the in-memory record is dropped.
-/

/-- Maximum number of receiver-chain advancements allowed in one call.
Modelled from the spec: the constant lives in consts.rs (not among the
provided sources); the spec recommends 2000. -/
def MAX_FORWARD_JUMPS : Nat := 2000

/-- Direction of a trust check against the identity key store. -/
inductive Direction where
  | Sending
  | Receiving
deriving DecidableEq, Repr

/-- Error kinds of the session cipher core (SignalProtocolError in the
Rust sources restricted to the variants this core produces).  The reason
strings of `InvalidMessage` are the exact string literals of
session_cipher.rs.  `NoCurrentSession` and `NoSenderChainKey` stand for
the errors raised by the state accessors (outside the provided sources)
when a record has no current state resp. a state has no sender chain;
the spec does not name these errors. -/
inductive SignalProtocolError where
  | SessionNotFound
  | InvalidSessionStructure
  | UnrecognizedMessageVersion (v : Nat)
  | InvalidCiphertext
  | InvalidMessage (reason : String)
  | DuplicatedMessage (chainIndex : Nat) (counter : Nat)
  | UntrustedIdentity
  | InvalidArgument (reason : String)
  | NoCurrentSession
  | NoSenderChainKey
deriving DecidableEq, Repr

/-- Is the error a `DuplicatedMessage`?  (Used to state the short-circuit
behaviour of the record-level decryptor.) -/
def SignalProtocolError.isDuplicatedMessage : SignalProtocolError → Bool
  | .DuplicatedMessage _ _ => true
  | _ => false

/-- A chain key: 32 bytes of key material together with the counter of the
next message to be derived from it.  Key material is abstracted to `Nat`. -/
structure ChainKey where
  key : Nat
  index : Nat
deriving DecidableEq, Repr

/-- The `(cipher_key, mac_key, iv, counter)` quadruple derived from a
chain key at a specific index. -/
structure MessageKeys where
  cipherKey : Nat
  macKey : Nat
  iv : Nat
  counter : Nat
deriving DecidableEq, Repr

/-- Modelled from the spec: the HMAC-based advancement of a chain key
(§4.A) is out of scope and total; an injective executable stand-in. -/
def kdfNextKey (k : Nat) : Nat := 2 * k + 1

/-- Modelled from the spec: the HKDF derivation of message-key material
from chain-key material (§4.A) is out of scope and total; an injective
executable stand-in, separated from `kdfNextKey`. -/
def kdfMessageSeed (k : Nat) : Nat := 2 * k

/-- `message_keys`: derive the MessageKeys at the chain key's current
index (ratchet.rs is outside the provided sources; modelled from the
spec, which makes this a total function of the chain key). -/
def ChainKey.messageKeys (ck : ChainKey) : MessageKeys :=
  { cipherKey := kdfMessageSeed ck.key
    macKey := kdfMessageSeed ck.key + 1
    iv := kdfMessageSeed ck.key + 2
    counter := ck.index }

/-- `next_chain_key`: advance the chain one step (modelled from the spec:
a total function producing the chain key at `index + 1`). -/
def ChainKey.nextChainKey (ck : ChainKey) : ChainKey :=
  { key := kdfNextKey ck.key, index := ck.index + 1 }

/-- The sender half of a session state: the local ratchet key pair and the
outgoing chain key.  Modelled from the spec's data model (§3). -/
structure SenderChain where
  ratchetPublic : Nat
  ratchetPrivate : Nat
  chainKey : ChainKey
deriving DecidableEq, Repr

/-- One receiver chain: keyed by the peer ratchet public key, holding the
current chain key and the cache of skipped MessageKeys.  Modelled from
the spec's data model (§3). -/
structure ReceiverChain where
  ratchetKey : Nat
  chainKey : ChainKey
  skippedKeys : List MessageKeys
deriving DecidableEq, Repr

/-- The items of an unacknowledged prekey handshake carried by a session
state.  Modelled from the spec's data model (§3). -/
structure UnacknowledgedPreKeyMessageItems where
  preKeyId : Option Nat
  signedPreKeyId : Nat
  baseKey : Nat
deriving DecidableEq, Repr

/-- The full Double Ratchet state for one direction pair.  Modelled from
the spec's data model (§3); state.rs is outside the provided sources. -/
structure SessionState where
  sessionVersion : Nat
  rootKey : Nat
  senderChain : Option SenderChain
  receiverChains : List ReceiverChain
  localIdentityKey : Nat
  remoteIdentityKey : Option Nat
  previousCounter : Nat
  localRegistrationId : Nat
  remoteRegistrationId : Nat
  unacknowledgedPreKey : Option UnacknowledgedPreKeyMessageItems
deriving DecidableEq, Repr

/-- Find the first receiver chain keyed by `pub` (the spec's receiver
chains are keyed by the peer ratchet public key). -/
def findChain (pk : Nat) : List ReceiverChain → Option ReceiverChain
  | [] => none
  | c :: rest => if c.ratchetKey = pk then some c else findChain pk rest

/-- Update the first receiver chain keyed by `pk` by `f`, leaving the
others untouched (mapping semantics of the spec's keyed collection). -/
def updateChainList (pk : Nat) (f : ReceiverChain → ReceiverChain) :
    List ReceiverChain → List ReceiverChain
  | [] => []
  | c :: rest =>
    if c.ratchetKey = pk then f c :: rest else c :: updateChainList pk f rest

/-- Find the first cached skipped MessageKeys with the given counter. -/
def findCounter (ctr : Nat) : List MessageKeys → Option MessageKeys
  | [] => none
  | mk :: rest => if mk.counter = ctr then some mk else findCounter ctr rest

/-- Remove the first cached skipped MessageKeys with the given counter
(consuming a skipped key). -/
def eraseCounter (ctr : Nat) : List MessageKeys → List MessageKeys
  | [] => []
  | mk :: rest => if mk.counter = ctr then rest else mk :: eraseCounter ctr rest

/-- `has_sender_chain` of state.rs; modelled from the spec (§3). -/
def SessionState.hasSenderChain (s : SessionState) : Bool :=
  s.senderChain.isSome

/-- `get_receiver_chain` lookup; modelled from the spec (§3). -/
def SessionState.getReceiverChain (s : SessionState) (pk : Nat) :
    Option ReceiverChain :=
  findChain pk s.receiverChains

/-- `get_receiver_chain_key`; modelled from the spec (§4.B step 1). -/
def SessionState.getReceiverChainKey (s : SessionState) (pk : Nat) :
    Option ChainKey :=
  (s.getReceiverChain pk).map ReceiverChain.chainKey

/-- `add_receiver_chain`: insert a fresh receiver chain for a newly seen
peer ratchet key.  Modelled from the spec (§3, §9): most-recently-added
first, evicting the oldest beyond the bound of 5. -/
def SessionState.addReceiverChain (s : SessionState) (pk : Nat) (ck : ChainKey) :
    SessionState :=
  { s with receiverChains :=
      (({ ratchetKey := pk, chainKey := ck, skippedKeys := [] } : ReceiverChain)
        :: s.receiverChains).take 5 }

/-- `set_receiver_chain_key`: store the chain key back into the receiver
chain keyed by `pk`.  Modelled from the spec (§4.C). -/
def SessionState.setReceiverChainKey (s : SessionState) (pk : Nat) (ck : ChainKey) :
    SessionState :=
  { s with receiverChains :=
      updateChainList pk (fun c => { c with chainKey := ck }) s.receiverChains }

/-- `set_message_keys`: store derived MessageKeys into the skipped-key
cache of the chain keyed by `pk`.  Modelled from the spec (§4.C). -/
def SessionState.setMessageKeys (s : SessionState) (pk : Nat) (mk : MessageKeys) :
    SessionState :=
  { s with receiverChains :=
      (updateChainList pk (fun c => { c with skippedKeys := mk :: c.skippedKeys })
        s.receiverChains) }

/-- `get_message_keys`: look up (and consume) a cached skipped key with
the given counter in the chain keyed by `pk`.  Modelled from the spec
(§4.C: an absent counter below the index "must have either been consumed
or stored; absence means it was already consumed"). -/
def SessionState.getMessageKeys (s : SessionState) (pk ctr : Nat) :
    Option MessageKeys × SessionState :=
  match s.getReceiverChain pk with
  | none => (none, s)
  | some chain =>
    (findCounter ctr chain.skippedKeys,
     { s with receiverChains :=
         (updateChainList pk
           (fun c => { c with skippedKeys := eraseCounter ctr chain.skippedKeys })
           s.receiverChains) })

/-- `set_sender_chain_key`; modelled from the spec (§4.F.1 step 7). -/
def SessionState.setSenderChainKey (s : SessionState) (ck : ChainKey) :
    SessionState :=
  { s with senderChain := s.senderChain.map (fun sc => { sc with chainKey := ck }) }

/-- `clear_unacknowledged_pre_key_message`; modelled from the spec
(§4.D step 7). -/
def SessionState.clearUnacknowledgedPreKeyMessage (s : SessionState) :
    SessionState :=
  { s with unacknowledgedPreKey := none }

/-- Modelled from the spec: the Diffie-Hellman agreement (out-of-scope
curve primitive); an executable stand-in pairing both arguments. -/
def ecdh (theirPub ourPriv : Nat) : Nat := Nat.pair theirPub ourPriv

/-- Modelled from the spec (§4.B step 2b): `KDF_RK` producing the new
root key together with a fresh receiver chain key at index 0.  The two
halves of the derivation are separated executable stand-ins. -/
def createChain (rootKey theirPub ourPriv : Nat) : Nat × ChainKey :=
  (2 * Nat.pair rootKey (ecdh theirPub ourPriv),
   { key := 2 * Nat.pair rootKey (ecdh theirPub ourPriv) + 1, index := 0 })

/-- A container of one optional current state and the archived states,
most recent first.  Modelled from the spec's data model (§3). -/
structure SessionRecord where
  currentSession : Option SessionState
  previousSessions : List SessionState
deriving DecidableEq, Repr

/-- `SessionRecord::new_fresh`; modelled from the spec (§4.F.4 step 1). -/
def SessionRecord.newFresh : SessionRecord :=
  { currentSession := none, previousSessions := [] }

/-- `set_session_state`: install a state as the current one.  Modelled
from the spec (§4.E step 1). -/
def SessionRecord.setSessionState (r : SessionRecord) (s : SessionState) :
    SessionRecord :=
  { r with currentSession := some s }

/-- `promote_old_session`: remove the archived state at `idx`, move the
formerly-current state (when present) to the archive head and install the
updated state as current.  Modelled from the spec (§4.E step 2, §9). -/
def SessionRecord.promoteOldSession (r : SessionRecord) (idx : Nat)
    (updated : SessionState) : SessionRecord :=
  { currentSession := some updated
    previousSessions :=
      match r.currentSession with
      | some c => c :: r.previousSessions.eraseIdx idx
      | none => r.previousSessions.eraseIdx idx }

/-- The SignalMessage envelope: version, sender ratchet public key,
counter, previous counter, body and trailing MAC (§6.2). -/
structure SignalMessage where
  messageVersion : Nat
  senderRatchetKey : Nat
  counter : Nat
  previousCounter : Nat
  body : Nat
  mac : Nat
deriving DecidableEq, Repr

/-- Modelled from the spec (§6.2): the MAC over the envelope body and
both identity keys using `mac_key`; an executable stand-in. -/
def computeMac (senderIdentity receiverIdentity macKey body : Nat) : Nat :=
  Nat.pair (Nat.pair senderIdentity receiverIdentity) (Nat.pair macKey body)

/-- `SignalMessage::new` as invoked by `message_encrypt`: assemble the
envelope and append the MAC computed from the sender and receiver
identity keys. -/
def SignalMessage.new (messageVersion macKey senderRatchetKey counter
    previousCounter ctext senderIdentity receiverIdentity : Nat) : SignalMessage :=
  { messageVersion := messageVersion
    senderRatchetKey := senderRatchetKey
    counter := counter
    previousCounter := previousCounter
    body := ctext
    mac := computeMac senderIdentity receiverIdentity macKey ctext }

/-- `verify_mac(their_identity, our_identity, mac_key)` of the envelope
(§6.2: a total boolean check). -/
def SignalMessage.verifyMac (m : SignalMessage)
    (theirIdentity ourIdentity macKey : Nat) : Bool :=
  m.mac = computeMac theirIdentity ourIdentity macKey m.body

/-- The PreKeySignalMessage envelope (§6.2). -/
structure PreKeySignalMessage where
  messageVersion : Nat
  registrationId : Nat
  preKeyId : Option Nat
  signedPreKeyId : Nat
  baseKey : Nat
  identityKey : Nat
  message : SignalMessage
deriving DecidableEq, Repr

/-- The two envelope kinds produced by `message_encrypt`. -/
inductive CiphertextMessage where
  | signalMessage (m : SignalMessage)
  | preKeySignalMessage (m : PreKeySignalMessage)
deriving DecidableEq, Repr

/-- Modelled from the spec: AES-256-CBC encryption is an out-of-scope
total primitive; an executable stand-in offsetting the plaintext by a
value derived from the key and iv. -/
def aes256CbcEncrypt (key iv ptext : Nat) : Nat :=
  Nat.pair key iv + 2 * ptext

/-- Modelled from the spec: AES-256-CBC decryption, inverse of the
stand-in `aes256CbcEncrypt` under the matching key and iv. -/
def aes256CbcDecrypt (key iv ctext : Nat) : Nat :=
  (ctext - Nat.pair key iv) / 2

/-- The external stores the orchestrators talk to, specialised to the one
remote address of an operation: the session (SessionStore), the trust
oracle (IdentityKeyStore), the identities saved so far and the remaining
one-time prekey ids (PreKeyStore). -/
structure Stores where
  session : Option SessionRecord
  trusted : Nat → Direction → Bool
  savedIdentities : List Nat
  preKeyIds : List Nat

/-- One store interaction, recorded in program order by the
orchestrators (the spec's suspension points, §5). -/
inductive StoreEvent where
  | loadSession
  | storeSession (r : SessionRecord)
  | isTrustedIdentity (k : Nat) (d : Direction)
  | saveIdentity (k : Nat)
  | removePreKey (id : Nat)
  | processPrekey
  | aesEncryptCall
deriving DecidableEq, Repr

/-- `get_or_create_chain_key` of session_cipher.rs: return the receiver
chain key for the peer ratchet key, performing the receiver half of the
DH ratchet step when the key is new.  The csprng parameter of the source
is unused there and omitted. -/
def get_or_create_chain_key (state : SessionState) (theirEphemeral : Nat) :
    Except SignalProtocolError (SessionState × ChainKey) :=
  match state.getReceiverChainKey theirEphemeral with
  | some chain => .ok (state, chain)
  | none =>
    match state.senderChain with
    | none => .error .NoSenderChainKey
    | some sc =>
      let rootKey := state.rootKey
      let ourEphemeral := sc.ratchetPrivate
      let receiverChain := createChain rootKey theirEphemeral ourEphemeral
      let state1 := { state with rootKey := receiverChain.1 }
      let state2 := state1.addReceiverChain theirEphemeral receiverChain.2
      .ok (state2, receiverChain.2)

/-- The `while chain_key.index() < counter` loop of
`get_or_create_message_key`, with explicit fuel `counter - index`: derive
and store the MessageKeys at each skipped index, advancing the running
chain key. -/
def skipMessageKeysLoop (theirEphemeral : Nat) :
    Nat → SessionState → ChainKey → SessionState × ChainKey
  | 0, state, chainKey => (state, chainKey)
  | Nat.succ n, state, chainKey =>
    skipMessageKeysLoop theirEphemeral n
      (state.setMessageKeys theirEphemeral chainKey.messageKeys)
      chainKey.nextChainKey

/-- `get_or_create_message_key` of session_cipher.rs: return the
MessageKeys for the given counter, consuming a cached skipped key for a
past counter, or ratcheting the receiver chain forward (bounded by
`MAX_FORWARD_JUMPS`), caching the skipped keys and storing the chain key
advanced one further step. -/
def get_or_create_message_key (state : SessionState) (theirEphemeral : Nat)
    (chainKey : ChainKey) (counter : Nat) :
    Except SignalProtocolError (SessionState × MessageKeys) :=
  let chainIndex := chainKey.index
  if chainIndex > counter then
    match state.getMessageKeys theirEphemeral counter with
    | (some keys, state1) => .ok (state1, keys)
    | (none, _) => .error (.DuplicatedMessage chainIndex counter)
  else
    let jump := counter - chainIndex
    if jump > MAX_FORWARD_JUMPS then
      .error (.InvalidMessage ("message from too far into the future"))
    else
      let loop := skipMessageKeysLoop theirEphemeral (counter - chainIndex) state chainKey
      let state1 := loop.1.setReceiverChainKey theirEphemeral loop.2.nextChainKey
      .ok (state1, loop.2.messageKeys)

/-- `decrypt_message_with_state` of session_cipher.rs: check the sender
chain and the version, obtain the receiver chain key and the MessageKeys,
verify the MAC, decrypt the body and clear the unacknowledged-prekey
items. -/
def decrypt_message_with_state (state : SessionState) (ciphertext : SignalMessage) :
    Except SignalProtocolError (SessionState × Nat) :=
  if ! state.hasSenderChain then
    .error (.InvalidMessage ("No session available to decrypt"))
  else
    let ciphertextVersion := ciphertext.messageVersion
    if ciphertextVersion ≠ state.sessionVersion then
      .error (.UnrecognizedMessageVersion ciphertextVersion)
    else
      let theirEphemeral := ciphertext.senderRatchetKey
      let counter := ciphertext.counter
      match get_or_create_chain_key state theirEphemeral with
      | .error e => .error e
      | .ok (state1, chainKey) =>
        match get_or_create_message_key state1 theirEphemeral chainKey counter with
        | .error e => .error e
        | .ok (state2, messageKeys) =>
          match state2.remoteIdentityKey with
          | none => .error .InvalidSessionStructure
          | some theirIdentityKey =>
            let macValid := ciphertext.verifyMac theirIdentityKey
              state2.localIdentityKey messageKeys.macKey
            if ! macValid then
              .error .InvalidCiphertext
            else
              let ptext := aes256CbcDecrypt messageKeys.cipherKey messageKeys.iv
                ciphertext.body
              .ok (state2.clearUnacknowledgedPreKeyMessage, ptext)

/-- The `for (idx, previous) in record.previous_session_states()` loop of
`decrypt_message_with_record`: try each archived state in stored order on
a clone, short-circuiting on `DuplicatedMessage` and returning the first
success together with its index. -/
def tryOldSessions (ciphertext : SignalMessage) :
    Nat → List SessionState →
    Except SignalProtocolError (Option (Nat × Nat × SessionState))
  | _, [] => .ok none
  | idx, previous :: rest =>
    match decrypt_message_with_state previous ciphertext with
    | .ok (updated, ptext) => .ok (some (ptext, idx, updated))
    | .error (.DuplicatedMessage i c) => .error (.DuplicatedMessage i c)
    | .error _ => tryOldSessions ciphertext (idx + 1) rest

/-- The tail of `decrypt_message_with_record` after the current state has
been tried without success: try the archived states, promote the first
successful one, otherwise fail with the post-fallback error.  The
diagnostic logging of the source is effect-free and not modelled. -/
def decrypt_with_previous_states (record : SessionRecord)
    (ciphertext : SignalMessage) :
    Except SignalProtocolError (SessionRecord × Nat) :=
  match tryOldSessions ciphertext 0 record.previousSessions with
  | .error e => .error e
  | .ok (some (ptext, idx, updated)) =>
    .ok (record.promoteOldSession idx updated, ptext)
  | .ok none => .error (.InvalidMessage ("message decryption failed"))

/-- `decrypt_message_with_record` of session_cipher.rs: try the current
state first on a clone, then the archived states in order; install or
promote the successful clone; return `DuplicatedMessage` immediately.
Rust mutates the record in place on success; here the mutated record is
returned, and an error result leaves the caller's record untouched. -/
def decrypt_message_with_record (record : SessionRecord)
    (ciphertext : SignalMessage) :
    Except SignalProtocolError (SessionRecord × Nat) :=
  match record.currentSession with
  | some currentState =>
    match decrypt_message_with_state currentState ciphertext with
    | .ok (newState, ptext) => .ok (record.setSessionState newState, ptext)
    | .error (.DuplicatedMessage i c) => .error (.DuplicatedMessage i c)
    | .error _ => decrypt_with_previous_states record ciphertext
  | none => decrypt_with_previous_states record ciphertext

/-- `message_encrypt` of session_cipher.rs: load the session, derive the
outgoing MessageKeys, encrypt, build the envelope, advance the sender
chain, then consult the identity store and persist identity and session.
Returns the result, the updated stores and the trace of store calls (the
`aesEncryptCall` marker records where the AES encryption of the plaintext
happens in program order). -/
def message_encrypt (ptext : Nat) (stores : Stores) :
    Except SignalProtocolError CiphertextMessage × Stores × List StoreEvent :=
  match stores.session with
  | none => (.error .SessionNotFound, stores, [.loadSession])
  | some sessionRecord =>
    match sessionRecord.currentSession with
    | none => (.error .NoCurrentSession, stores, [.loadSession])
    | some sessionState =>
      match sessionState.senderChain with
      | none => (.error .NoSenderChainKey, stores, [.loadSession])
      | some senderChain =>
        let chainKey := senderChain.chainKey
        let messageKeys := chainKey.messageKeys
        let senderEphemeral := senderChain.ratchetPublic
        let previousCounter := sessionState.previousCounter
        let sessionVersion := sessionState.sessionVersion
        let localIdentityKey := sessionState.localIdentityKey
        match sessionState.remoteIdentityKey with
        | none => (.error .InvalidSessionStructure, stores, [.loadSession])
        | some theirIdentityKey =>
          let ctext := aes256CbcEncrypt messageKeys.cipherKey messageKeys.iv ptext
          let innerMessage := SignalMessage.new sessionVersion messageKeys.macKey
            senderEphemeral chainKey.index previousCounter ctext
            localIdentityKey theirIdentityKey
          let message :=
            match sessionState.unacknowledgedPreKey with
            | some items =>
              CiphertextMessage.preKeySignalMessage
                { messageVersion := sessionVersion
                  registrationId := sessionState.localRegistrationId
                  preKeyId := items.preKeyId
                  signedPreKeyId := items.signedPreKeyId
                  baseKey := items.baseKey
                  identityKey := localIdentityKey
                  message := innerMessage }
            | none => CiphertextMessage.signalMessage innerMessage
          let newState := sessionState.setSenderChainKey chainKey.nextChainKey
          let newRecord := sessionRecord.setSessionState newState
          if ! stores.trusted theirIdentityKey .Sending then
            (.error .UntrustedIdentity, stores,
             [.loadSession, .aesEncryptCall,
              .isTrustedIdentity theirIdentityKey .Sending])
          else
            (.ok message,
             { stores with
                 session := some newRecord
                 savedIdentities := stores.savedIdentities ++ [theirIdentityKey] },
             [.loadSession, .aesEncryptCall,
              .isTrustedIdentity theirIdentityKey .Sending,
              .saveIdentity theirIdentityKey,
              .storeSession newRecord])

/-- `message_decrypt_signal` of session_cipher.rs: load the session,
decrypt against the record, then run the receiving-direction trust check,
save the identity and store the advanced session.  An error anywhere
leaves the stores untouched. -/
def message_decrypt_signal (ciphertext : SignalMessage) (stores : Stores) :
    Except SignalProtocolError Nat × Stores × List StoreEvent :=
  match stores.session with
  | none => (.error .SessionNotFound, stores, [.loadSession])
  | some sessionRecord =>
    match decrypt_message_with_record sessionRecord ciphertext with
    | .error e => (.error e, stores, [.loadSession])
    | .ok (newRecord, ptext) =>
      match newRecord.currentSession with
      | none => (.error .NoCurrentSession, stores, [.loadSession])
      | some state =>
        match state.remoteIdentityKey with
        | none => (.error .InvalidSessionStructure, stores, [.loadSession])
        | some theirIdentityKey =>
          if ! stores.trusted theirIdentityKey .Receiving then
            (.error .UntrustedIdentity, stores,
             [.loadSession, .isTrustedIdentity theirIdentityKey .Receiving])
          else
            (.ok ptext,
             { stores with
                 session := some newRecord
                 savedIdentities := stores.savedIdentities ++ [theirIdentityKey] },
             [.loadSession, .isTrustedIdentity theirIdentityKey .Receiving,
              .saveIdentity theirIdentityKey,
              .storeSession newRecord])

/-- `message_decrypt_prekey` of session_cipher.rs.  The X3DH collaborator
`session::process_prekey` is external to the core (session.rs is outside
the provided sources; the spec delegates key agreement to it), so it is
passed in as an oracle that mutates the record and reports the consumed
`pre_key_id`.  The session is loaded (a fresh record if absent), the
collaborator runs, the inner message is decrypted, the session is stored
and only then is the consumed one-time prekey removed. -/
def message_decrypt_prekey
    (processPrekey : SessionRecord →
      Except SignalProtocolError (SessionRecord × Option Nat))
    (ciphertext : PreKeySignalMessage) (stores : Stores) :
    Except SignalProtocolError Nat × Stores × List StoreEvent :=
  let sessionRecord := stores.session.getD SessionRecord.newFresh
  match processPrekey sessionRecord with
  | .error e => (.error e, stores, [.loadSession, .processPrekey])
  | .ok (record1, preKeyId) =>
    match decrypt_message_with_record record1 ciphertext.message with
    | .error e => (.error e, stores, [.loadSession, .processPrekey])
    | .ok (record2, ptext) =>
      match preKeyId with
      | some id =>
        (.ok ptext,
         { stores with
             session := some record2
             preKeyIds := stores.preKeyIds.filter (fun x => x ≠ id) },
         [.loadSession, .processPrekey, .storeSession record2, .removePreKey id])
      | none =>
        (.ok ptext,
         { stores with session := some record2 },
         [.loadSession, .processPrekey, .storeSession record2])

/-- The skipped-key invariant for one receiver chain: cached skipped keys
exist only for counters strictly below the chain's current index. -/
def chainSkippedInvariant (chain : ReceiverChain) : Prop :=
  ∀ mk ∈ chain.skippedKeys, mk.counter < chain.chainKey.index

/-- The skipped-key invariant of a session state (invariant 2 of the
spec): it holds for every receiver chain of the state. -/
def skippedKeysInvariant (s : SessionState) : Prop :=
  ∀ chain ∈ s.receiverChains, chainSkippedInvariant chain

/-- Did a per-state decryption attempt fail with something other than
`DuplicatedMessage`?  (The record-level decryptor continues to the next
candidate exactly in this case.) -/
def resultNonDupFailure {α : Type} : Except SignalProtocolError α → Bool
  | .error e => ! e.isDuplicatedMessage
  | .ok _ => false

/-- Is the record's current state absent, or does it fail on the envelope
with a non-`DuplicatedMessage` error?  (The condition under which the
record-level decryptor falls through to the archived states.) -/
def currentFailsOrMissing (record : SessionRecord) (ciphertext : SignalMessage) :
    Bool :=
  match record.currentSession with
  | none => true
  | some cur => resultNonDupFailure (decrypt_message_with_state cur ciphertext)

theorem findChain_append_left (pk : Nat) (l1 l2 : List ReceiverChain)
    (chain : ReceiverChain) (h1 : ∀ x ∈ l1, x.ratchetKey ≠ pk)
    (hc : chain.ratchetKey = pk) :
    findChain pk (l1 ++ chain :: l2) = some chain := by
  induction l1 with
  | nil => simp [findChain, hc]
  | cons a l ih =>
    have ha : a.ratchetKey ≠ pk := h1 a (by simp)
    simpa [findChain, ha] using ih (fun x hx => h1 x (by simp [hx]))

theorem updateChainList_append (pk : Nat) (f : ReceiverChain → ReceiverChain)
    (l1 l2 : List ReceiverChain) (chain : ReceiverChain)
    (h1 : ∀ x ∈ l1, x.ratchetKey ≠ pk) (hc : chain.ratchetKey = pk) :
    updateChainList pk f (l1 ++ chain :: l2) = l1 ++ f chain :: l2 := by
  induction l1 with
  | nil => simp [updateChainList, hc]
  | cons a l ih =>
    have ha : a.ratchetKey ≠ pk := h1 a (by simp)
    simpa [updateChainList, ha] using ih (fun x hx => h1 x (by simp [hx]))

theorem findChain_split (pk : Nat) (l : List ReceiverChain) (chain : ReceiverChain)
    (h : findChain pk l = some chain) :
    chain.ratchetKey = pk ∧
    ∃ l1 l2, l = l1 ++ chain :: l2 ∧ ∀ x ∈ l1, x.ratchetKey ≠ pk := by
  induction l with
  | nil => simp [findChain] at h
  | cons a l ih =>
    by_cases ha : a.ratchetKey = pk
    · rw [findChain, if_pos ha] at h
      obtain rfl : a = chain := by injection h
      exact ⟨ha, [], l, by simp, by simp⟩
    · rw [findChain, if_neg ha] at h
      obtain ⟨hkey, l1, l2, heq, hall⟩ := ih h
      refine ⟨hkey, a :: l1, l2, by simp [heq], ?_⟩
      intro x hx
      rcases List.mem_cons.mp hx with rfl | hx'
      · exact ha
      · exact hall x hx'

theorem eraseCounter_subset (ctr : Nat) (l : List MessageKeys) :
    ∀ mk ∈ eraseCounter ctr l, mk ∈ l := by
  induction l with
  | nil => simp [eraseCounter]
  | cons a l ih =>
    intro mk hmk
    by_cases ha : a.counter = ctr
    · rw [eraseCounter, if_pos ha] at hmk
      exact List.mem_cons_of_mem a hmk
    · rw [eraseCounter, if_neg ha] at hmk
      rcases List.mem_cons.mp hmk with rfl | hmk'
      · exact List.mem_cons_self _ _
      · exact List.mem_cons_of_mem a (ih mk hmk')

theorem skipMessageKeysLoop_index (pk : Nat) (n : Nat) :
    ∀ (st : SessionState) (ck : ChainKey),
      (skipMessageKeysLoop pk n st ck).2.index = ck.index + n := by
  induction n with
  | zero => intro st ck; simp [skipMessageKeysLoop]
  | succ n ih =>
    intro st ck
    rw [skipMessageKeysLoop, ih]
    simp [ChainKey.nextChainKey]
    omega

theorem skipMessageKeysLoop_chains (pk : Nat) (n : Nat) :
    ∀ (st : SessionState) (ck : ChainKey) (l1 l2 : List ReceiverChain)
      (chain : ReceiverChain),
      st.receiverChains = l1 ++ chain :: l2 →
      (∀ x ∈ l1, x.ratchetKey ≠ pk) →
      chain.ratchetKey = pk →
      ∃ chain' : ReceiverChain,
        (skipMessageKeysLoop pk n st ck).1.receiverChains = l1 ++ chain' :: l2
        ∧ chain'.ratchetKey = pk
        ∧ chain'.chainKey = chain.chainKey
        ∧ (∀ mk ∈ chain'.skippedKeys,
            mk ∈ chain.skippedKeys ∨
              (ck.index ≤ mk.counter ∧ mk.counter < ck.index + n))
        ∧ (∀ mk ∈ chain.skippedKeys, mk ∈ chain'.skippedKeys)
        ∧ (∀ j, ck.index ≤ j → j < ck.index + n →
            ∃ mk ∈ chain'.skippedKeys, mk.counter = j) := by
  induction n with
  | zero =>
    intro st ck l1 l2 chain hsplit hl1 hkey
    refine ⟨chain, by simpa [skipMessageKeysLoop] using hsplit, hkey, rfl,
      fun mk hmk => Or.inl hmk, fun mk hmk => hmk, ?_⟩
    intro j hj1 hj2
    omega
  | succ n ih =>
    intro st ck l1 l2 chain hsplit hl1 hkey
    have hstep : (st.setMessageKeys pk ck.messageKeys).receiverChains
        = l1 ++ { chain with skippedKeys := ck.messageKeys :: chain.skippedKeys } :: l2 := by
      rw [SessionState.setMessageKeys]
      simp only [hsplit]
      exact updateChainList_append pk _ l1 l2 chain hl1 hkey
    obtain ⟨chain', h1, h2, h3, h4, h5, h6⟩ :=
      ih (st.setMessageKeys pk ck.messageKeys) ck.nextChainKey l1 l2
        { chain with skippedKeys := ck.messageKeys :: chain.skippedKeys }
        hstep hl1 (by simpa using hkey)
    refine ⟨chain', by simpa [skipMessageKeysLoop] using h1, h2, by simpa using h3,
      ?_, ?_, ?_⟩
    · intro mk hmk
      rcases h4 mk hmk with hmem | hbound
      · rcases List.mem_cons.mp (by simpa using hmem) with rfl | hmem'
        · right
          constructor
          · simp [ChainKey.messageKeys]
          · simp [ChainKey.messageKeys]
        · exact Or.inl hmem'
      · right
        have : ck.nextChainKey.index = ck.index + 1 := by simp [ChainKey.nextChainKey]
        omega
    · intro mk hmk
      exact h5 mk (by simpa using List.mem_cons_of_mem ck.messageKeys hmk)
    · intro j hj1 hj2
      by_cases hj : j = ck.index
      · subst hj
        refine ⟨ck.messageKeys, h5 ck.messageKeys (by simp), ?_⟩
        simp [ChainKey.messageKeys]
      · have hnext : ck.nextChainKey.index = ck.index + 1 := by
          simp [ChainKey.nextChainKey]
        exact h6 j (by omega) (by omega)

theorem get_or_create_message_key_advance
    (state : SessionState) (pk c : Nat) (ck : ChainKey)
    (l1 l2 : List ReceiverChain) (chain : ReceiverChain)
    (hsplit : state.receiverChains = l1 ++ chain :: l2)
    (hl1 : ∀ x ∈ l1, x.ratchetKey ≠ pk)
    (hkey : chain.ratchetKey = pk)
    (hle : ck.index ≤ c)
    (hjump : c - ck.index ≤ MAX_FORWARD_JUMPS) :
    ∃ state1 chain' keys,
      get_or_create_message_key state pk ck c = .ok (state1, keys)
      ∧ state1.receiverChains = l1 ++ chain' :: l2
      ∧ chain'.ratchetKey = pk
      ∧ chain'.chainKey.index = c + 1
      ∧ keys.counter = c
      ∧ (∀ mk ∈ chain'.skippedKeys,
          mk ∈ chain.skippedKeys ∨ (ck.index ≤ mk.counter ∧ mk.counter < c))
      ∧ (∀ j, ck.index ≤ j → j < c → ∃ mk ∈ chain'.skippedKeys, mk.counter = j) := by
  obtain ⟨chainMid, hm1, hm2, hm3, hm4, hm5, hm6⟩ :=
    skipMessageKeysLoop_chains pk (c - ck.index) state ck l1 l2 chain hsplit hl1 hkey
  have hidx : (skipMessageKeysLoop pk (c - ck.index) state ck).2.index = c := by
    rw [skipMessageKeysLoop_index]
    omega
  have hng : ¬ ck.index > c := by omega
  have hnj : ¬ c - ck.index > MAX_FORWARD_JUMPS := by omega
  refine ⟨(skipMessageKeysLoop pk (c - ck.index) state ck).1.setReceiverChainKey pk
      (skipMessageKeysLoop pk (c - ck.index) state ck).2.nextChainKey,
    { chainMid with
        chainKey := (skipMessageKeysLoop pk (c - ck.index) state ck).2.nextChainKey },
    (skipMessageKeysLoop pk (c - ck.index) state ck).2.messageKeys,
    ?_, ?_, by simpa using hm2, ?_, ?_, ?_, ?_⟩
  · simp [get_or_create_message_key, hng, hnj]
  · show (updateChainList pk _ _) = _
    rw [hm1]
    exact updateChainList_append pk _ l1 l2 chainMid hl1 hm2
  · simp [ChainKey.nextChainKey, hidx]
  · simp [ChainKey.messageKeys, hidx]
  · intro mk hmk
    rcases hm4 mk (by simpa using hmk) with h | h
    · exact Or.inl h
    · right
      omega
  · intro j hj1 hj2
    obtain ⟨mk, hmk, hc2⟩ := hm6 j hj1 (by omega)
    exact ⟨mk, by simpa using hmk, hc2⟩

/-- Decompose `getReceiverChainKey = some ck` into the found chain and
the list split around it. -/
theorem getReceiverChainKey_split (state : SessionState) (pk : Nat) (ck : ChainKey)
    (hck : state.getReceiverChainKey pk = some ck) :
    ∃ chain l1 l2,
      chain.chainKey = ck ∧ chain.ratchetKey = pk
      ∧ state.receiverChains = l1 ++ chain :: l2
      ∧ ∀ x ∈ l1, x.ratchetKey ≠ pk := by
  rw [SessionState.getReceiverChainKey] at hck
  cases hfind : state.getReceiverChain pk with
  | none => rw [hfind] at hck; simp at hck
  | some chain =>
    rw [hfind] at hck
    simp at hck
    obtain ⟨hkey, l1, l2, hsplit, hl1⟩ :=
      findChain_split pk state.receiverChains chain hfind
    exact ⟨chain, l1, l2, hck, hkey, hsplit, hl1⟩

/-- C2: for a SessionState whose receiver chain key for `pk` has index
`i`, and a counter `c` with `i ≤ c` and `c - i ≤ MAX_FORWARD_JUMPS`,
`get_or_create_message_key` succeeds, stores a skipped MessageKeys entry
for every index `j ∈ [i, c)` in the chain keyed by `pk`, stores the
receiver chain key back at index `c + 1` and returns the MessageKeys
whose counter equals `c`. -/
theorem get_or_create_message_key_jump_ahead
    (state : SessionState) (pk c : Nat) (ck : ChainKey)
    (hck : state.getReceiverChainKey pk = some ck)
    (hle : ck.index ≤ c)
    (hjump : c - ck.index ≤ MAX_FORWARD_JUMPS) :
    ∃ state1 keys chain',
      get_or_create_message_key state pk ck c = .ok (state1, keys)
      ∧ keys.counter = c
      ∧ state1.getReceiverChain pk = some chain'
      ∧ chain'.chainKey.index = c + 1
      ∧ (∀ j, ck.index ≤ j → j < c → ∃ mk ∈ chain'.skippedKeys, mk.counter = j) := by
  obtain ⟨chain, l1, l2, hchainkey, hkey, hsplit, hl1⟩ :=
    getReceiverChainKey_split state pk ck hck
  obtain ⟨state1, chain', keys, heq, hrc, hck', hidx', hcount, hbound, hex⟩ :=
    get_or_create_message_key_advance state pk c ck l1 l2 chain hsplit hl1 hkey hle hjump
  refine ⟨state1, keys, chain', heq, hcount, ?_, hidx', hex⟩
  rw [SessionState.getReceiverChain, hrc]
  exact findChain_append_left pk l1 l2 chain' hl1 hck'

/-- C3: `get_or_create_message_key` fails exactly in two cases.  When the
chain index `i` exceeds the counter `c` it returns the cached skipped key
at `(pk, c)` if one is stored and fails with `DuplicatedMessage (i, c)`
otherwise; when `i ≤ c` and `c - i > MAX_FORWARD_JUMPS` it fails with the
too-far-into-the-future `InvalidMessage` (the source's exact reason
string is "message from too far into the future"); in all other cases it
succeeds. -/
theorem get_or_create_message_key_failure_cases
    (state : SessionState) (pk : Nat) (ck : ChainKey) (c : Nat) :
    (ck.index > c → (state.getMessageKeys pk c).1 = none →
       get_or_create_message_key state pk ck c
         = .error (.DuplicatedMessage ck.index c))
    ∧ (ck.index > c → ∀ keys, (state.getMessageKeys pk c).1 = some keys →
       get_or_create_message_key state pk ck c
         = .ok ((state.getMessageKeys pk c).2, keys))
    ∧ (ck.index ≤ c → c - ck.index > MAX_FORWARD_JUMPS →
       get_or_create_message_key state pk ck c
         = .error (.InvalidMessage ("message from too far into the future")))
    ∧ (ck.index ≤ c → c - ck.index ≤ MAX_FORWARD_JUMPS →
       ∃ state1 keys,
         get_or_create_message_key state pk ck c = .ok (state1, keys)) := by
  refine ⟨?_, ?_, ?_, ?_⟩
  · intro hgt hnone
    rw [get_or_create_message_key]
    cases hmk : state.getMessageKeys pk c with
    | mk fst snd =>
      rw [hmk] at hnone
      simp at hnone
      subst hnone
      simp [hgt]
  · intro hgt keys hsome
    rw [get_or_create_message_key]
    cases hmk : state.getMessageKeys pk c with
    | mk fst snd =>
      rw [hmk] at hsome
      simp at hsome
      subst hsome
      simp [hgt, hmk]
  · intro hle hjump
    have hng : ¬ ck.index > c := by omega
    simp [get_or_create_message_key, hng, hjump]
  · intro hle hjump
    have hng : ¬ ck.index > c := by omega
    have hnj : ¬ c - ck.index > MAX_FORWARD_JUMPS := by omega
    refine ⟨((skipMessageKeysLoop pk (c - ck.index) state ck).1.setReceiverChainKey pk
        (skipMessageKeysLoop pk (c - ck.index) state ck).2.nextChainKey),
      (skipMessageKeysLoop pk (c - ck.index) state ck).2.messageKeys, ?_⟩
    simp only [get_or_create_message_key]
    rw [if_neg hng, if_neg hnj]

/-- Core of the skipped-key invariant preservation: every successful
`get_or_create_message_key`, called with the chain key stored for `pk`,
keeps all skipped counters strictly below their chain's index, and the
jump-ahead path advances the stored chain key to `c + 1`. -/
theorem get_or_create_message_key_invariant_aux
    (state : SessionState) (pk c : Nat) (ck : ChainKey)
    (state1 : SessionState) (keys : MessageKeys)
    (hck : state.getReceiverChainKey pk = some ck)
    (hinv : skippedKeysInvariant state)
    (hok : get_or_create_message_key state pk ck c = .ok (state1, keys)) :
    skippedKeysInvariant state1
    ∧ (ck.index ≤ c →
       (state1.getReceiverChainKey pk).map ChainKey.index = some (c + 1)) := by
  obtain ⟨chain, l1, l2, hchainkey, hkey, hsplit, hl1⟩ :=
    getReceiverChainKey_split state pk ck hck
  have hchain_mem : chain ∈ state.receiverChains := by
    rw [hsplit]
    simp
  by_cases hgt : ck.index > c
  · -- "message from the past": a cached skipped key was consumed
    have hfind : state.getReceiverChain pk = some chain := by
      rw [SessionState.getReceiverChain, hsplit]
      exact findChain_append_left pk l1 l2 chain hl1 hkey
    simp only [get_or_create_message_key] at hok
    rw [if_pos hgt] at hok
    simp only [SessionState.getMessageKeys, hfind] at hok
    cases hfc : findCounter c chain.skippedKeys with
    | none => rw [hfc] at hok; simp at hok
    | some mk0 =>
      rw [hfc] at hok
      simp only [Except.ok.injEq, Prod.mk.injEq] at hok
      obtain ⟨hst, hkeys⟩ := hok
      constructor
      · intro ch hch
        rw [← hst] at hch
        have hupd : updateChainList pk
            (fun c0 => { c0 with skippedKeys := eraseCounter c chain.skippedKeys })
            state.receiverChains
            = l1 ++ ({ chain with skippedKeys := eraseCounter c chain.skippedKeys }) :: l2 := by
          rw [hsplit]
          exact updateChainList_append pk _ l1 l2 chain hl1 hkey
        have hch0 : ch ∈ updateChainList pk
            (fun c0 => { c0 with skippedKeys := eraseCounter c chain.skippedKeys })
            state.receiverChains := hch
        rw [hupd] at hch0
        replace hch := hch0
        rcases List.mem_append.mp hch with hch1 | hch2
        · exact hinv ch (by rw [hsplit]; exact List.mem_append_left _ hch1)
        · rcases List.mem_cons.mp hch2 with rfl | hch3
          · intro mk hmk
            have : mk ∈ chain.skippedKeys := eraseCounter_subset c chain.skippedKeys mk hmk
            exact hinv chain hchain_mem mk this
          · exact hinv ch (by
              rw [hsplit]
              exact List.mem_append_right _ (List.mem_cons_of_mem _ hch3))
      · intro hle
        omega
  · by_cases hj : c - ck.index > MAX_FORWARD_JUMPS
    · exfalso
      have hng : ¬ ck.index > c := hgt
      simp [get_or_create_message_key, hng, hj] at hok
    · obtain ⟨state1', chain', keys', heq, hrc, hck', hidx', hcount, hbound, hex⟩ :=
        get_or_create_message_key_advance state pk c ck l1 l2 chain hsplit hl1 hkey
          (by omega) (by omega)
      have hok2 : state1' = state1 ∧ keys' = keys := by
        have := heq.symm.trans hok
        simpa using this
      obtain ⟨rfl, rfl⟩ := hok2
      constructor
      · intro ch hch
        rw [hrc] at hch
        rcases List.mem_append.mp hch with hch1 | hch2
        · exact hinv ch (by rw [hsplit]; exact List.mem_append_left _ hch1)
        · rcases List.mem_cons.mp hch2 with rfl | hch3
          · intro mk hmk
            rcases hbound mk hmk with hmem | hb
            · have := hinv chain hchain_mem mk hmem
              rw [hchainkey] at this
              omega
            · omega
          · exact hinv ch (by
              rw [hsplit]
              exact List.mem_append_right _ (List.mem_cons_of_mem _ hch3))
      · intro hle
        have : state1'.getReceiverChain pk = some chain' := by
          rw [SessionState.getReceiverChain, hrc]
          exact findChain_append_left pk l1 l2 chain' hl1 hck'
        rw [SessionState.getReceiverChainKey, this]
        simp [hidx']

/-- `get_or_create_chain_key` always leaves the returned chain key stored
for `pk`, and preserves the skipped-key invariant (a freshly created
receiver chain has an empty skipped-key cache). -/
theorem get_or_create_chain_key_spec (state : SessionState) (pk : Nat)
    (state1 : SessionState) (ck : ChainKey)
    (hok : get_or_create_chain_key state pk = .ok (state1, ck)) :
    state1.getReceiverChainKey pk = some ck
    ∧ (skippedKeysInvariant state → skippedKeysInvariant state1) := by
  simp only [get_or_create_chain_key] at hok
  cases hfind : state.getReceiverChainKey pk with
  | some chain =>
    rw [hfind] at hok
    simp only [Except.ok.injEq, Prod.mk.injEq] at hok
    obtain ⟨rfl, rfl⟩ := hok
    exact ⟨hfind, fun h => h⟩
  | none =>
    rw [hfind] at hok
    cases hsc : state.senderChain with
    | none => rw [hsc] at hok; simp at hok
    | some sc =>
      rw [hsc] at hok
      simp only [Except.ok.injEq, Prod.mk.injEq] at hok
      obtain ⟨rfl, rfl⟩ := hok
      constructor
      · simp [SessionState.getReceiverChainKey, SessionState.getReceiverChain,
          SessionState.addReceiverChain, List.take_succ_cons, findChain]
      · intro hinv ch hch
        have hch' : ch ∈
            (({ ratchetKey := pk, chainKey := (createChain state.rootKey pk
                sc.ratchetPrivate).2, skippedKeys := [] } : ReceiverChain)
              :: state.receiverChains).take 5 := hch
        rw [List.take_succ_cons] at hch'
        rcases List.mem_cons.mp hch' with rfl | hmem
        · intro mk hmk
          simp at hmk
        · exact hinv ch (List.take_subset _ _ hmem)

/-- C9: skipped message keys stored for a receiver chain exist only for
counters strictly less than that chain's current chain-key index: the
invariant is preserved by every successful `get_or_create_message_key`
(called, as the decryptor does, with the chain key stored for the peer
ratchet key), which in the jump-ahead case also advances the stored
chain key to index `c + 1`; and it is preserved along the whole
reachable per-state path, i.e. by every successful
`decrypt_message_with_state`. -/
theorem get_or_create_message_key_preserves_invariant :
    (∀ (state : SessionState) (pk c : Nat) (ck : ChainKey)
       (state1 : SessionState) (keys : MessageKeys),
       state.getReceiverChainKey pk = some ck →
       skippedKeysInvariant state →
       get_or_create_message_key state pk ck c = .ok (state1, keys) →
       skippedKeysInvariant state1
       ∧ (ck.index ≤ c →
          (state1.getReceiverChainKey pk).map ChainKey.index = some (c + 1)))
    ∧ (∀ (state : SessionState) (ciphertext : SignalMessage)
       (state1 : SessionState) (p : Nat),
       skippedKeysInvariant state →
       decrypt_message_with_state state ciphertext = .ok (state1, p) →
       skippedKeysInvariant state1) := by
  constructor
  · intro state pk c ck state1 keys hck hinv hok
    exact get_or_create_message_key_invariant_aux state pk c ck state1 keys hck hinv hok
  · intro state ciphertext state1 p hinv hok
    cases hsc : state.hasSenderChain with
    | false => simp [decrypt_message_with_state, hsc] at hok
    | true =>
      by_cases hv : ciphertext.messageVersion = state.sessionVersion
      case neg =>
        simp [decrypt_message_with_state, hsc, hv] at hok
      case pos =>
        cases heqc : get_or_create_chain_key state ciphertext.senderRatchetKey with
        | error e => simp [decrypt_message_with_state, hsc, hv, heqc] at hok
        | ok pA =>
          obtain ⟨sA, chainKey⟩ := pA
          cases heqm : get_or_create_message_key sA ciphertext.senderRatchetKey
              chainKey ciphertext.counter with
          | error e => simp [decrypt_message_with_state, hsc, hv, heqc, heqm] at hok
          | ok pB =>
            obtain ⟨sB, messageKeys⟩ := pB
            cases heqk : sB.remoteIdentityKey with
            | none =>
              simp [decrypt_message_with_state, hsc, hv, heqc, heqm, heqk] at hok
            | some k =>
              cases hmac : ciphertext.verifyMac k sB.localIdentityKey
                  messageKeys.macKey with
              | false =>
                simp [decrypt_message_with_state, hsc, hv, heqc, heqm, heqk,
                  hmac] at hok
              | true =>
                have hok2 : sB.clearUnacknowledgedPreKeyMessage = state1 := by
                  simp [decrypt_message_with_state, hsc, hv, heqc, heqm, heqk,
                    hmac] at hok
                  exact hok.1
                obtain ⟨hstored, hpres⟩ :=
                  get_or_create_chain_key_spec state ciphertext.senderRatchetKey
                    sA chainKey heqc
                have hinvA : skippedKeysInvariant sA := hpres hinv
                have hinvB : skippedKeysInvariant sB :=
                  (get_or_create_message_key_invariant_aux sA
                    ciphertext.senderRatchetKey ciphertext.counter chainKey
                    sB messageKeys hstored hinvA heqm).1
                rw [← hok2]
                intro ch hch
                exact hinvB ch hch

theorem tryOldSessions_cons_nonDup (ciphertext : SignalMessage) (a : SessionState)
    (l : List SessionState) (i0 : Nat)
    (ha : resultNonDupFailure (decrypt_message_with_state a ciphertext) = true) :
    tryOldSessions ciphertext i0 (a :: l) = tryOldSessions ciphertext (i0 + 1) l := by
  cases hd : decrypt_message_with_state a ciphertext with
  | ok v => rw [hd] at ha; simp [resultNonDupFailure] at ha
  | error e =>
    rw [hd] at ha
    cases e
    case DuplicatedMessage i c =>
      simp [resultNonDupFailure, SignalProtocolError.isDuplicatedMessage] at ha
    all_goals simp only [tryOldSessions, hd]

theorem tryOldSessions_all_fail (ciphertext : SignalMessage) :
    ∀ (l : List SessionState) (i0 : Nat),
      (∀ s ∈ l, resultNonDupFailure (decrypt_message_with_state s ciphertext) = true) →
      tryOldSessions ciphertext i0 l = .ok none := by
  intro l
  induction l with
  | nil => intro i0 _; rfl
  | cons s rest ih =>
    intro i0 h
    rw [tryOldSessions_cons_nonDup ciphertext s rest i0 (h s (by simp))]
    exact ih (i0 + 1) (fun x hx => h x (List.mem_cons_of_mem _ hx))

theorem tryOldSessions_first_success (ciphertext : SignalMessage)
    (pre : List SessionState) :
    ∀ (s : SessionState) (rest : List SessionState) (i0 : Nat)
      (upd : SessionState) (p : Nat),
      (∀ sk ∈ pre, resultNonDupFailure (decrypt_message_with_state sk ciphertext) = true) →
      decrypt_message_with_state s ciphertext = .ok (upd, p) →
      tryOldSessions ciphertext i0 (pre ++ s :: rest)
        = .ok (some (p, i0 + pre.length, upd)) := by
  induction pre with
  | nil =>
    intro s rest i0 upd p _ hsucc
    simp [tryOldSessions, hsucc]
  | cons a pre ih =>
    intro s rest i0 upd p h hsucc
    have hrec := ih s rest (i0 + 1) upd p
      (fun x hx => h x (List.mem_cons_of_mem _ hx)) hsucc
    rw [List.cons_append,
      tryOldSessions_cons_nonDup ciphertext a (pre ++ s :: rest) i0 (h a (by simp)),
      hrec]
    have harith : i0 + 1 + pre.length = i0 + (a :: pre).length := by
      simp only [List.length_cons]
      omega
    rw [harith]

theorem tryOldSessions_duplicate (ciphertext : SignalMessage)
    (pre : List SessionState) :
    ∀ (s : SessionState) (rest : List SessionState) (i0 : Nat) (i c : Nat),
      (∀ sk ∈ pre, resultNonDupFailure (decrypt_message_with_state sk ciphertext) = true) →
      decrypt_message_with_state s ciphertext = .error (.DuplicatedMessage i c) →
      tryOldSessions ciphertext i0 (pre ++ s :: rest)
        = .error (.DuplicatedMessage i c) := by
  induction pre with
  | nil =>
    intro s rest i0 i c _ hdup
    simp [tryOldSessions, hdup]
  | cons a pre ih =>
    intro s rest i0 i c h hdup
    rw [List.cons_append,
      tryOldSessions_cons_nonDup ciphertext a (pre ++ s :: rest) i0 (h a (by simp))]
    exact ih s rest (i0 + 1) i c
      (fun x hx => h x (List.mem_cons_of_mem _ hx)) hdup

theorem decrypt_message_with_record_fallthrough (record : SessionRecord)
    (ciphertext : SignalMessage)
    (hcur : currentFailsOrMissing record ciphertext = true) :
    decrypt_message_with_record record ciphertext
      = decrypt_with_previous_states record ciphertext := by
  cases hc : record.currentSession with
  | none => simp [decrypt_message_with_record, hc]
  | some cur =>
    simp only [currentFailsOrMissing, hc] at hcur
    cases hd : decrypt_message_with_state cur ciphertext with
    | ok v => rw [hd] at hcur; simp [resultNonDupFailure] at hcur
    | error e =>
      rw [hd] at hcur
      cases e
      case DuplicatedMessage i c =>
        simp [resultNonDupFailure, SignalProtocolError.isDuplicatedMessage] at hcur
      all_goals simp only [decrypt_message_with_record, hc, hd]

/-- C4: `decrypt_message_with_record` tries the current state first and
then each archived state in stored order; the first state whose clone
decrypts successfully wins: a successful current state is installed as
the new current state, a successful archived state (here the one at
position `pre.length`, every earlier candidate having failed with a
non-duplicate error) is promoted to current via `promoteOldSession`
(which moves the formerly-current state to the archive head), and the
plaintext is returned; if no state succeeds and no `DuplicatedMessage`
occurred, it fails with the post-fallback `InvalidMessage` (the source's
exact reason string is "message decryption failed"). -/
theorem decrypt_message_with_record_spec
    (record : SessionRecord) (ciphertext : SignalMessage) :
    (∀ cur upd p, record.currentSession = some cur →
       decrypt_message_with_state cur ciphertext = .ok (upd, p) →
       decrypt_message_with_record record ciphertext
         = .ok (record.setSessionState upd, p))
    ∧ (∀ pre s rest upd p,
       currentFailsOrMissing record ciphertext = true →
       record.previousSessions = pre ++ s :: rest →
       (∀ sk ∈ pre, resultNonDupFailure (decrypt_message_with_state sk ciphertext) = true) →
       decrypt_message_with_state s ciphertext = .ok (upd, p) →
       decrypt_message_with_record record ciphertext
         = .ok (record.promoteOldSession pre.length upd, p))
    ∧ (currentFailsOrMissing record ciphertext = true →
       (∀ sk ∈ record.previousSessions,
         resultNonDupFailure (decrypt_message_with_state sk ciphertext) = true) →
       decrypt_message_with_record record ciphertext
         = .error (.InvalidMessage ("message decryption failed"))) := by
  refine ⟨?_, ?_, ?_⟩
  · intro cur upd p hc hd
    simp [decrypt_message_with_record, hc, hd]
  · intro pre s rest upd p hcur hsplit hpre hs
    have htry : tryOldSessions ciphertext 0 record.previousSessions
        = .ok (some (p, pre.length, upd)) := by
      rw [hsplit]
      simpa using tryOldSessions_first_success ciphertext pre s rest 0 upd p hpre hs
    rw [decrypt_message_with_record_fallthrough record ciphertext hcur]
    simp [decrypt_with_previous_states, htry]
  · intro hcur hall
    have htry : tryOldSessions ciphertext 0 record.previousSessions = .ok none :=
      tryOldSessions_all_fail ciphertext record.previousSessions 0 hall
    rw [decrypt_message_with_record_fallthrough record ciphertext hcur]
    simp [decrypt_with_previous_states, htry]

/-- A concrete receiver chain key at index 0 for the example scenarios. -/
def exCK : ChainKey := { key := 10, index := 0 }

/-- A concrete established session state: sender chain present, one
receiver chain for peer ratchet key 100 at index 0, identities 20/21. -/
def exGood : SessionState :=
  { sessionVersion := 3
    rootKey := 7
    senderChain := some
      { ratchetPublic := 1, ratchetPrivate := 2, chainKey := { key := 5, index := 0 } }
    receiverChains := [{ ratchetKey := 100, chainKey := exCK, skippedKeys := [] }]
    localIdentityKey := 20
    remoteIdentityKey := some 21
    previousCounter := 0
    localRegistrationId := 11
    remoteRegistrationId := 12
    unacknowledgedPreKey := none }

/-- A concrete envelope at counter 0 from peer ratchet key 100 whose MAC
verifies against `exGood`. -/
def exMsg : SignalMessage :=
  { messageVersion := 3
    senderRatchetKey := 100
    counter := 0
    previousCounter := 0
    body := 42
    mac := computeMac 21 20 exCK.messageKeys.macKey 42 }

/-- `exGood` after decrypting `exMsg`: the receiver chain advanced to
index 1. -/
def exGoodAdvanced : SessionState :=
  { exGood with receiverChains :=
      [{ ratchetKey := 100, chainKey := { key := 21, index := 1 }, skippedKeys := [] }] }

/-- The record holding `exGood` as current state. -/
def exRecord : SessionRecord :=
  { currentSession := some exGood, previousSessions := [] }

/-- The record after decrypting `exMsg`. -/
def exRecordAdvanced : SessionRecord :=
  { currentSession := some exGoodAdvanced, previousSessions := [] }

/-- Stores holding `exRecord` whose identity store rejects everything. -/
def exUntrustedStores : Stores :=
  { session := some exRecord
    trusted := fun _ _ => false
    savedIdentities := []
    preKeyIds := [] }

/-- `exGood` with a mismatching session version (its decryption attempts
fail with `UnrecognizedMessageVersion`, a non-duplicate error). -/
def exBadVersion : SessionState := { exGood with sessionVersion := 4 }

/-- A record whose current state fails and whose first archived state is
`exGood` (which decrypts `exMsg`). -/
def exRecordFallback : SessionRecord :=
  { currentSession := some exBadVersion, previousSessions := [exGood] }

/-- `exGood` with its receiver chain already advanced to index 5 and no
cached skipped keys: decrypting `exMsg` (counter 0) is a duplicate. -/
def exDupState : SessionState :=
  { exGood with receiverChains :=
      [{ ratchetKey := 100, chainKey := { key := 10, index := 5 }, skippedKeys := [] }] }

/-- A record whose current state reports a duplicate while the archived
`exGood` would decrypt the envelope. -/
def exRecordDup : SessionRecord :=
  { currentSession := some exDupState, previousSessions := [exGood] }

/-- `exGood` without a sender chain. -/
def exNoChainState : SessionState := { exGood with senderChain := none }

/-- `exMsg` with a corrupted MAC. -/
def exBadMacMsg : SignalMessage := { exMsg with mac := exMsg.mac + 1 }

/-- The state reached from `exGood` by `get_or_create_message_key` at
counter 2: skipped keys cached for counters 1 and 0, chain at index 3. -/
def exSkipState : SessionState :=
  { exGood with receiverChains :=
      [{ ratchetKey := 100
         chainKey := { key := 87, index := 3 }
         skippedKeys := [{ cipherKey := 42, macKey := 43, iv := 44, counter := 1 },
                         { cipherKey := 20, macKey := 21, iv := 22, counter := 0 }] }] }

/-- The MessageKeys returned for counter 2 from `exGood`. -/
def exKeys2 : MessageKeys := { cipherKey := 86, macKey := 87, iv := 88, counter := 2 }

/-- `exGood` without a remote identity key. -/
def exNoRemoteState : SessionState := { exGood with remoteIdentityKey := none }

/-- Stores whose session's current state lacks a remote identity key. -/
def exNoRemoteStores : Stores :=
  { session := some { currentSession := some exNoRemoteState, previousSessions := [] }
    trusted := fun _ _ => true
    savedIdentities := []
    preKeyIds := [] }

/-- A concrete external prekey collaborator: installs `exRecord` and
reports that one-time prekey 42 was used. -/
def exProcessPrekey :
    SessionRecord → Except SignalProtocolError (SessionRecord × Option Nat) :=
  fun _ => .ok (exRecord, some 42)

/-- A concrete PreKey envelope wrapping `exMsg`. -/
def exPrekeyMsg : PreKeySignalMessage :=
  { messageVersion := 3
    registrationId := 11
    preKeyId := some 42
    signedPreKeyId := 1
    baseKey := 50
    identityKey := 20
    message := exMsg }

/-- Stores with no session yet and two stored one-time prekeys. -/
def exEmptyStores : Stores :=
  { session := none
    trusted := fun _ _ => true
    savedIdentities := []
    preKeyIds := [42, 7] }

/-- C1 (as amended): within one `message_decrypt_signal` the store
operations occur in the order `load_session`, `is_trusted_identity`,
`save_identity`, `store_session` — the trust check runs after decryption
but before any persistence.  For every envelope that decrypts
successfully but whose remote identity the identity store rejects, the
call returns `UntrustedIdentity` and the advanced SessionRecord is NOT
written to the SessionStore (the stores are returned unchanged and the
trace contains no `storeSession`). -/
theorem message_decrypt_signal_order
    (stores : Stores) (r newRecord : SessionRecord) (p : Nat) (s : SessionState)
    (k : Nat) (ciphertext : SignalMessage)
    (h1 : stores.session = some r)
    (h2 : decrypt_message_with_record r ciphertext = .ok (newRecord, p))
    (h3 : newRecord.currentSession = some s)
    (h4 : s.remoteIdentityKey = some k) :
    (stores.trusted k .Receiving = false →
       message_decrypt_signal ciphertext stores
         = (.error .UntrustedIdentity, stores,
            [.loadSession, .isTrustedIdentity k .Receiving]))
    ∧ (stores.trusted k .Receiving = true →
       message_decrypt_signal ciphertext stores
         = (.ok p,
            { stores with
                session := some newRecord
                savedIdentities := stores.savedIdentities ++ [k] },
            [.loadSession, .isTrustedIdentity k .Receiving, .saveIdentity k,
             .storeSession newRecord])) := by
  constructor <;> intro ht <;>
    simp [message_decrypt_signal, h1, h2, h3, h4, ht]

/-- C6: in `message_encrypt`, if `is_trusted_identity` answers false the
operation fails with `UntrustedIdentity` and neither `save_identity` nor
`store_session` is called — the stores are returned unchanged and the
trace shows only the load and the trust check; on the success path the
store operations occur in the order `is_trusted_identity`,
`save_identity`, `store_session` (on the record whose sender chain was
advanced one step). -/
theorem message_encrypt_trust_gate
    (ptext : Nat) (stores : Stores) (r : SessionRecord) (st : SessionState)
    (sc : SenderChain) (k : Nat)
    (h1 : stores.session = some r)
    (h2 : r.currentSession = some st)
    (h3 : st.senderChain = some sc)
    (h4 : st.remoteIdentityKey = some k) :
    (stores.trusted k .Sending = false →
       message_encrypt ptext stores
         = (.error .UntrustedIdentity, stores,
            [.loadSession, .aesEncryptCall, .isTrustedIdentity k .Sending]))
    ∧ (stores.trusted k .Sending = true →
       (message_encrypt ptext stores).2.1
         = { stores with
               session := some (r.setSessionState
                 (st.setSenderChainKey sc.chainKey.nextChainKey))
               savedIdentities := stores.savedIdentities ++ [k] }
       ∧ (message_encrypt ptext stores).2.2
         = [.loadSession, .aesEncryptCall, .isTrustedIdentity k .Sending,
            .saveIdentity k,
            .storeSession (r.setSessionState
              (st.setSenderChainKey sc.chainKey.nextChainKey))]) := by
  constructor <;> intro ht
  · simp [message_encrypt, h1, h2, h3, h4, ht]
  · cases hu : st.unacknowledgedPreKey <;>
      constructor <;>
      simp [message_encrypt, h1, h2, h3, h4, ht, hu]

/-- C10: for every loaded session whose current state has a sender chain
but no remote identity key, `message_encrypt` fails with
`InvalidSessionStructure` before the plaintext is encrypted (no
`aesEncryptCall` in the trace) and before any call to
`is_trusted_identity`, `save_identity` or `store_session`: the only store
event is the initial `load_session` and the stores are unchanged. -/
theorem message_encrypt_missing_remote_identity
    (ptext : Nat) (stores : Stores) (r : SessionRecord) (st : SessionState)
    (sc : SenderChain)
    (h1 : stores.session = some r)
    (h2 : r.currentSession = some st)
    (h3 : st.senderChain = some sc)
    (h4 : st.remoteIdentityKey = none) :
    message_encrypt ptext stores
      = (.error .InvalidSessionStructure, stores, [.loadSession]) := by
  simp [message_encrypt, h1, h2, h3, h4]

/-- C8: in `message_decrypt_prekey` the effects occur in the order
`load_session` (a fresh record when none exists), `process_prekey`,
decrypt, `store_session`, `remove_pre_key`; `remove_pre_key` is called
exactly once if and only if decryption succeeds and `process_prekey`
returned a `pre_key_id`, so a failed decryption (or a failed
`process_prekey`) never consumes a one-time prekey. -/
theorem message_decrypt_prekey_order
    (pp : SessionRecord → Except SignalProtocolError (SessionRecord × Option Nat))
    (ciphertext : PreKeySignalMessage) (stores : Stores) :
    (∀ e, pp (stores.session.getD SessionRecord.newFresh) = .error e →
       message_decrypt_prekey pp ciphertext stores
         = (.error e, stores, [.loadSession, .processPrekey]))
    ∧ (∀ r1 pkid e,
       pp (stores.session.getD SessionRecord.newFresh) = .ok (r1, pkid) →
       decrypt_message_with_record r1 ciphertext.message = .error e →
       message_decrypt_prekey pp ciphertext stores
         = (.error e, stores, [.loadSession, .processPrekey]))
    ∧ (∀ r1 id r2 p,
       pp (stores.session.getD SessionRecord.newFresh) = .ok (r1, some id) →
       decrypt_message_with_record r1 ciphertext.message = .ok (r2, p) →
       message_decrypt_prekey pp ciphertext stores
         = (.ok p,
            { stores with
                session := some r2
                preKeyIds := stores.preKeyIds.filter (fun x => x ≠ id) },
            [.loadSession, .processPrekey, .storeSession r2, .removePreKey id]))
    ∧ (∀ r1 r2 p,
       pp (stores.session.getD SessionRecord.newFresh) = .ok (r1, none) →
       decrypt_message_with_record r1 ciphertext.message = .ok (r2, p) →
       message_decrypt_prekey pp ciphertext stores
         = (.ok p, { stores with session := some r2 },
            [.loadSession, .processPrekey, .storeSession r2])) := by
  refine ⟨?_, ?_, ?_, ?_⟩
  · intro e hpp
    simp [message_decrypt_prekey, hpp]
  · intro r1 pkid e hpp hd
    cases pkid <;> simp [message_decrypt_prekey, hpp, hd]
  · intro r1 id r2 p hpp hd
    simp [message_decrypt_prekey, hpp, hd]
  · intro r1 r2 p hpp hd
    simp [message_decrypt_prekey, hpp, hd]

/-- C7 (as amended): `decrypt_message_with_state` rejects every state
without a sender chain with `InvalidMessage` whose reason is the source's
exact string "No session available to decrypt" (the spec labels this
condition "no sender chain"); otherwise it rejects an envelope whose
version differs from the state's `session_version` with
`UnrecognizedMessageVersion`; and once the chain key and MessageKeys
have been obtained and the state carries a remote identity key, it fails
with `InvalidCiphertext` exactly when the envelope's MAC does not verify
against `(remote_identity_key, local_identity_key, mac_key)`. -/
theorem decrypt_message_with_state_rejections
    (state : SessionState) (ciphertext : SignalMessage) :
    (state.hasSenderChain = false →
       decrypt_message_with_state state ciphertext
         = .error (.InvalidMessage ("No session available to decrypt")))
    ∧ (state.hasSenderChain = true →
       ciphertext.messageVersion ≠ state.sessionVersion →
       decrypt_message_with_state state ciphertext
         = .error (.UnrecognizedMessageVersion ciphertext.messageVersion))
    ∧ (∀ state1 chainKey state2 messageKeys k,
       state.hasSenderChain = true →
       ciphertext.messageVersion = state.sessionVersion →
       get_or_create_chain_key state ciphertext.senderRatchetKey
         = .ok (state1, chainKey) →
       get_or_create_message_key state1 ciphertext.senderRatchetKey chainKey
         ciphertext.counter = .ok (state2, messageKeys) →
       state2.remoteIdentityKey = some k →
       (decrypt_message_with_state state ciphertext = .error .InvalidCiphertext
        ↔ ciphertext.verifyMac k state2.localIdentityKey messageKeys.macKey
            = false)) := by
  refine ⟨?_, ?_, ?_⟩
  · intro hsc
    simp [decrypt_message_with_state, hsc]
  · intro hsc hv
    simp [decrypt_message_with_state, hsc, hv]
  · intro state1 chainKey state2 messageKeys k hsc hv hck hmk hid
    cases hb : ciphertext.verifyMac k state2.localIdentityKey messageKeys.macKey
    · have heval : decrypt_message_with_state state ciphertext
          = .error .InvalidCiphertext := by
        simp [decrypt_message_with_state, hsc, hv, hck, hmk, hid, hb]
      simp [heval]
    · have heval : decrypt_message_with_state state ciphertext
          = .ok (state2.clearUnacknowledgedPreKeyMessage,
                 aes256CbcDecrypt messageKeys.cipherKey messageKeys.iv
                   ciphertext.body) := by
        simp [decrypt_message_with_state, hsc, hv, hck, hmk, hid, hb]
      simp [heval]

/-- C5: whenever a per-state attempt (against the current state, or
against an archived state after earlier candidates failed with
non-duplicate errors) fails with `DuplicatedMessage`, the record-level
decryptor returns exactly that error: no later candidate state is tried
and, since mutation is modelled by the record returned on success, an
error result leaves the caller's SessionRecord unmodified. -/
theorem decrypt_message_with_record_duplicate
    (record : SessionRecord) (ciphertext : SignalMessage) :
    (∀ cur i c, record.currentSession = some cur →
       decrypt_message_with_state cur ciphertext = .error (.DuplicatedMessage i c) →
       decrypt_message_with_record record ciphertext
         = .error (.DuplicatedMessage i c))
    ∧ (∀ pre s rest i c,
       currentFailsOrMissing record ciphertext = true →
       record.previousSessions = pre ++ s :: rest →
       (∀ sk ∈ pre, resultNonDupFailure (decrypt_message_with_state sk ciphertext) = true) →
       decrypt_message_with_state s ciphertext = .error (.DuplicatedMessage i c) →
       decrypt_message_with_record record ciphertext
         = .error (.DuplicatedMessage i c)) := by
  constructor
  · intro cur i c hc hd
    simp [decrypt_message_with_record, hc, hd]
  · intro pre s rest i c hcur hsplit hpre hdup
    have htry : tryOldSessions ciphertext 0 record.previousSessions
        = .error (.DuplicatedMessage i c) := by
      rw [hsplit]
      exact tryOldSessions_duplicate ciphertext pre s rest 0 i c hpre hdup
    rw [decrypt_message_with_record_fallthrough record ciphertext hcur]
    simp [decrypt_with_previous_states, htry]

/-- C1 counterexample: a concrete envelope that decrypts successfully
under `exRecord` while the identity store rejects identity 21.  The call
returns `UntrustedIdentity`, but — contrary to the claimed
`load_session, store_session, is_trusted_identity, save_identity`
ordering — the SessionStore still holds the unadvanced `exRecord` (the
advanced record differs) and the trace stops at the trust check with no
`storeSession` event. -/
theorem message_decrypt_signal_order_counterexample :
    decrypt_message_with_record exRecord exMsg = .ok (exRecordAdvanced, 0)
    ∧ exRecordAdvanced ≠ exRecord
    ∧ (message_decrypt_signal exMsg exUntrustedStores).1 = .error .UntrustedIdentity
    ∧ (message_decrypt_signal exMsg exUntrustedStores).2.1.session = some exRecord
    ∧ (message_decrypt_signal exMsg exUntrustedStores).2.2
        = [.loadSession, .isTrustedIdentity 21 .Receiving] := by
  refine ⟨rfl, by decide, rfl, rfl, rfl⟩

/-- Witness for the amended C1 theorem at the concrete rejecting
scenario. -/
theorem message_decrypt_signal_order_witness :
    message_decrypt_signal exMsg exUntrustedStores
      = (.error .UntrustedIdentity, exUntrustedStores,
         [.loadSession, .isTrustedIdentity 21 .Receiving]) :=
  (message_decrypt_signal_order exUntrustedStores exRecord exRecordAdvanced 0
    exGoodAdvanced 21 exMsg rfl rfl rfl rfl).1 rfl

/-- Witness for C2 at `exGood`, counter 2: two skipped keys are cached
and the chain is stored back at index 3. -/
theorem get_or_create_message_key_jump_ahead_witness :
    ∃ state1 keys chain',
      get_or_create_message_key exGood 100 exCK 2 = .ok (state1, keys)
      ∧ keys.counter = 2
      ∧ state1.getReceiverChain 100 = some chain'
      ∧ chain'.chainKey.index = 2 + 1
      ∧ (∀ j, exCK.index ≤ j → j < 2 → ∃ mk ∈ chain'.skippedKeys, mk.counter = j) :=
  get_or_create_message_key_jump_ahead exGood 100 2 exCK rfl (by decide) (by decide)

/-- Witness for C3: a counter 2500 ahead of index 0 exceeds
`MAX_FORWARD_JUMPS = 2000` and is rejected. -/
theorem get_or_create_message_key_failure_cases_witness :
    get_or_create_message_key exGood 100 exCK 2500
      = .error (.InvalidMessage ("message from too far into the future")) :=
  (get_or_create_message_key_failure_cases exGood 100 exCK 2500).2.2.1
    (by decide) (by decide)

/-- Witness for C4: the current state of `exRecordFallback` fails with a
version mismatch, the first archived state decrypts, and it is promoted
to current. -/
theorem decrypt_message_with_record_spec_witness :
    decrypt_message_with_record exRecordFallback exMsg
      = .ok (exRecordFallback.promoteOldSession 0 exGoodAdvanced, 0) :=
  (decrypt_message_with_record_spec exRecordFallback exMsg).2.1
    [] exGood [] exGoodAdvanced 0 rfl rfl (by simp) rfl

/-- Witness for C5: the current state of `exRecordDup` reports a
duplicate at counter 0 and the archived `exGood` — which would decrypt
the envelope — is never tried. -/
theorem decrypt_message_with_record_duplicate_witness :
    decrypt_message_with_record exRecordDup exMsg
      = .error (.DuplicatedMessage 5 0) :=
  (decrypt_message_with_record_duplicate exRecordDup exMsg).1
    exDupState 5 0 rfl rfl

/-- Witness for C6 at the rejecting identity store: encryption aborts
after the trust check with no persistence. -/
theorem message_encrypt_trust_gate_witness :
    message_encrypt 9 exUntrustedStores
      = (.error .UntrustedIdentity, exUntrustedStores,
         [.loadSession, .aesEncryptCall, .isTrustedIdentity 21 .Sending]) :=
  (message_encrypt_trust_gate 9 exUntrustedStores exRecord exGood
    { ratchetPublic := 1, ratchetPrivate := 2, chainKey := { key := 5, index := 0 } }
    21 rfl rfl rfl rfl).1 rfl

/-- C7 counterexample: on a state without a sender chain the code's
reason string is "No session available to decrypt", not the spec's
quoted "no sender chain". -/
theorem decrypt_message_with_state_reason_counterexample :
    decrypt_message_with_state exNoChainState exMsg
      = .error (.InvalidMessage ("No session available to decrypt"))
    ∧ ("No session available to decrypt" : String) ≠ "no sender chain" := by
  refine ⟨rfl, by decide⟩

/-- Witness for the amended C7 theorem: a corrupted MAC yields
`InvalidCiphertext`. -/
theorem decrypt_message_with_state_rejections_witness :
    decrypt_message_with_state exGood exBadMacMsg = .error .InvalidCiphertext :=
  ((decrypt_message_with_state_rejections exGood exBadMacMsg).2.2 exGood exCK
    exGoodAdvanced exCK.messageKeys 21 rfl rfl rfl rfl rfl).mpr (by decide)

/-- Witness for C8: a prekey envelope decrypted from a fresh record
stores the session and then removes exactly the consumed prekey 42. -/
theorem message_decrypt_prekey_order_witness :
    message_decrypt_prekey exProcessPrekey exPrekeyMsg exEmptyStores
      = (.ok 0,
         { exEmptyStores with
             session := some exRecordAdvanced
             preKeyIds := exEmptyStores.preKeyIds.filter (fun x => x ≠ 42) },
         [.loadSession, .processPrekey, .storeSession exRecordAdvanced,
          .removePreKey 42]) :=
  (message_decrypt_prekey_order exProcessPrekey exPrekeyMsg exEmptyStores).2.2.1
    exRecord 42 exRecordAdvanced 0 rfl rfl

/-- Witness for C9: after the jump to counter 2 from `exGood`, the
skipped-key invariant holds of the resulting state and the stored chain
key sits at index 3. -/
theorem get_or_create_message_key_preserves_invariant_witness :
    skippedKeysInvariant exSkipState
    ∧ (exCK.index ≤ 2 →
       (exSkipState.getReceiverChainKey 100).map ChainKey.index = some (2 + 1)) :=
  get_or_create_message_key_preserves_invariant.1 exGood 100 2 exCK exSkipState exKeys2
    rfl (by simp [skippedKeysInvariant, chainSkippedInvariant, exGood]) rfl

/-- Witness for C10: with no remote identity key in the current state,
encryption fails with `InvalidSessionStructure` right after the load. -/
theorem message_encrypt_missing_remote_identity_witness :
    message_encrypt 9 exNoRemoteStores
      = (.error .InvalidSessionStructure, exNoRemoteStores, [.loadSession]) :=
  message_encrypt_missing_remote_identity 9 exNoRemoteStores
    { currentSession := some exNoRemoteState, previousSessions := [] }
    exNoRemoteState
    { ratchetPublic := 1, ratchetPrivate := 2, chainKey := { key := 5, index := 0 } }
    rfl rfl rfl rfl
